import Mathlib

/-
  Verification of the Biwenger balance-updater utility (src/balance_updater.py).

  The program loads a set of team identifiers from a JSON file, pages through a
  remote board endpoint accumulating transaction records, filters and groups
  them by user id, and writes the grouped mapping to a JSON file.

  This file gives a shallow embedding of that program.  JSON values (which
  double as the Python values the program manipulates, since every value the
  program touches comes from parsed JSON) are modelled by the inductive `Json`.
  Python-specific behaviours that the code relies on are modelled explicitly:
  truthiness (`Json.truthy`), `dict.get` with a default (`Json.dictGet`, which
  raises `AttributeError` on non-dict receivers, modelled as `Except.error`),
  subscripting (`pySubscript`, raising `KeyError`/`TypeError`), iteration
  (`pyIterate`), and hashability (`Json.hashable`, since using an unhashable
  value as a set/dict member raises `TypeError`).  Fallible code returns
  `Except Unit`; an `Except.error` models an uncaught Python exception.
-/

namespace BalanceUpdater

/-- A JSON value; also the model of the Python values built by `json.load` /
`response.json()` (JSON null becomes Python `None`, and so on). Numbers are
modelled as integers: every number the data model of the program cares about
(team ids, user ids) is an integer. -/
inductive Json where
  | null
  | bool (b : Bool)
  | num (n : Int)
  | str (s : String)
  | arr (items : List Json)
  | obj (fields : List (String × Json))

mutual

/-- Decidable structural equality on `Json`, used for Lean-level reasoning
and decidability.  Python value equality is NOT structural (it equates
booleans with the integers 0 and 1); the embedding models it separately by
`pyEq` and uses `pyEq` at every site where the program compares values. -/
def Json.decEq : (a b : Json) → Decidable (a = b)
  | .null, .null => isTrue rfl
  | .bool a, .bool b =>
    if h : a = b then isTrue (by rw [h]) else isFalse (by intro hh; cases hh; exact h rfl)
  | .num a, .num b =>
    if h : a = b then isTrue (by rw [h]) else isFalse (by intro hh; cases hh; exact h rfl)
  | .str a, .str b =>
    if h : a = b then isTrue (by rw [h]) else isFalse (by intro hh; cases hh; exact h rfl)
  | .arr xs, .arr ys =>
    match Json.decEqList xs ys with
    | isTrue h => isTrue (by rw [h])
    | isFalse h => isFalse (by intro hh; cases hh; exact h rfl)
  | .obj xs, .obj ys =>
    match Json.decEqObj xs ys with
    | isTrue h => isTrue (by rw [h])
    | isFalse h => isFalse (by intro hh; cases hh; exact h rfl)
  | .null, .bool _ => isFalse (by intro h; cases h)
  | .null, .num _ => isFalse (by intro h; cases h)
  | .null, .str _ => isFalse (by intro h; cases h)
  | .null, .arr _ => isFalse (by intro h; cases h)
  | .null, .obj _ => isFalse (by intro h; cases h)
  | .bool _, .null => isFalse (by intro h; cases h)
  | .bool _, .num _ => isFalse (by intro h; cases h)
  | .bool _, .str _ => isFalse (by intro h; cases h)
  | .bool _, .arr _ => isFalse (by intro h; cases h)
  | .bool _, .obj _ => isFalse (by intro h; cases h)
  | .num _, .null => isFalse (by intro h; cases h)
  | .num _, .bool _ => isFalse (by intro h; cases h)
  | .num _, .str _ => isFalse (by intro h; cases h)
  | .num _, .arr _ => isFalse (by intro h; cases h)
  | .num _, .obj _ => isFalse (by intro h; cases h)
  | .str _, .null => isFalse (by intro h; cases h)
  | .str _, .bool _ => isFalse (by intro h; cases h)
  | .str _, .num _ => isFalse (by intro h; cases h)
  | .str _, .arr _ => isFalse (by intro h; cases h)
  | .str _, .obj _ => isFalse (by intro h; cases h)
  | .arr _, .null => isFalse (by intro h; cases h)
  | .arr _, .bool _ => isFalse (by intro h; cases h)
  | .arr _, .num _ => isFalse (by intro h; cases h)
  | .arr _, .str _ => isFalse (by intro h; cases h)
  | .arr _, .obj _ => isFalse (by intro h; cases h)
  | .obj _, .null => isFalse (by intro h; cases h)
  | .obj _, .bool _ => isFalse (by intro h; cases h)
  | .obj _, .num _ => isFalse (by intro h; cases h)
  | .obj _, .str _ => isFalse (by intro h; cases h)
  | .obj _, .arr _ => isFalse (by intro h; cases h)

/-- Componentwise decidable equality for JSON arrays. -/
def Json.decEqList : (a b : List Json) → Decidable (a = b)
  | [], [] => isTrue rfl
  | [], _ :: _ => isFalse (by intro h; cases h)
  | _ :: _, [] => isFalse (by intro h; cases h)
  | x :: xs, y :: ys =>
    match Json.decEq x y, Json.decEqList xs ys with
    | isTrue h1, isTrue h2 => isTrue (by rw [h1, h2])
    | isFalse h1, _ => isFalse (by intro hh; cases hh; exact h1 rfl)
    | _, isFalse h2 => isFalse (by intro hh; cases hh; exact h2 rfl)

/-- Componentwise decidable equality for JSON object member lists. -/
def Json.decEqObj : (a b : List (String × Json)) → Decidable (a = b)
  | [], [] => isTrue rfl
  | [], _ :: _ => isFalse (by intro h; cases h)
  | _ :: _, [] => isFalse (by intro h; cases h)
  | (k1, v1) :: xs, (k2, v2) :: ys =>
    if h0 : k1 = k2 then
      match Json.decEq v1 v2, Json.decEqObj xs ys with
      | isTrue h1, isTrue h2 => isTrue (by rw [h0, h1, h2])
      | isFalse h1, _ => isFalse (by intro hh; cases hh; exact h1 rfl)
      | _, isFalse h2 => isFalse (by intro hh; cases hh; exact h2 rfl)
    else isFalse (by intro hh; cases hh; exact h0 rfl)

end

instance : DecidableEq Json := Json.decEq

/-- The numeric value Python sees in a bool or an int: `True` and `False`
are the integers 1 and 0 for both `==` and `hash`. -/
def pyNumVal : Json → Option Int
  | .bool b => some (if b then 1 else 0)
  | .num n => some n
  | _ => none

/-- Python `==` as the program applies it.  Two numeric values (bools
included) are equal when their numeric values agree, so `True == 1` and
`False == 0`; otherwise equality is structural.  Every comparison site in
the program (set membership, dict membership, dict indexing) hashes its
operands first, so `pyEq` is only ever reached on hashable scalars (null,
bool, int, str); its value on lists and objects is never consulted. -/
def pyEq (a b : Json) : Bool :=
  match pyNumVal a, pyNumVal b with
  | some x, some y => decide (x = y)
  | _, _ => decide (a = b)

/-- First-match lookup in the member list of a JSON object (Python dict lookup; objects produced
by `json.load` have unique keys, so first-match is faithful). -/
def lookupField : List (String × Json) → String → Option Json
  | [], _ => none
  | (k, v) :: rest, key => if k = key then some v else lookupField rest key

/-- Python truthiness of a JSON-derived value: `None`, `False`, `0`, `""`,
`[]`, `{}` are falsy, everything else truthy. -/
def Json.truthy : Json → Bool
  | .null => false
  | .bool b => b
  | .num n => decide (n ≠ 0)
  | .str s => !s.isEmpty
  | .arr [] => false
  | .arr (_ :: _) => true
  | .obj [] => false
  | .obj (_ :: _) => true

/-- Whether the Python value is hashable (usable as a dict key / set member).
Lists and dicts are unhashable; using one raises `TypeError`. -/
def Json.hashable : Json → Bool
  | .arr _ => false
  | .obj _ => false
  | _ => true

/-- Python `receiver.get(key, default)`: on a dict, the stored value or the
default; on any other receiver, `AttributeError` (modelled as `error`). -/
def Json.dictGet : Json → String → Json → Except Unit Json
  | .obj kvs, key, dflt => .ok ((lookupField kvs key).getD dflt)
  | _, _, _ => .error ()

/-- Python `receiver[key]` with a string key: on a dict, the stored value or
`KeyError` when absent; on any other receiver, `TypeError`. -/
def pySubscript : Json → String → Except Unit Json
  | .obj kvs, key =>
    match lookupField kvs key with
    | some v => .ok v
    | none => .error ()
  | _, _ => .error ()

/-- Python iteration over a JSON-derived value: a list yields its elements, a
dict its keys, a string its one-character substrings; `None`, booleans and
numbers are not iterable (`TypeError`). -/
def pyIterate : Json → Except Unit (List Json)
  | .arr xs => .ok xs
  | .obj kvs => .ok (kvs.map (fun p => Json.str p.1))
  | .str s => .ok (s.toList.map (fun c => Json.str (String.singleton c)))
  | _ => .error ()

/-- Auxiliary accumulator pass for `dedupIds`: an element is skipped when a
`pyEq`-equal element was already kept (a Python set keeps the first of two
equal elements, so adding `True` after `1` leaves `{1}`). -/
def dedupAux : List Json → List Json → List Json
  | [], acc => acc.reverse
  | x :: rest, acc => if acc.any (fun y => pyEq y x) then dedupAux rest acc else dedupAux rest (x :: acc)

/-- Collapse Python-equal duplicates, keeping first occurrences: the model of
building a Python set from a list (set iteration order is unspecified in
Python, so any canonical order is a faithful model).  The resulting elements
are pairwise `pyEq`-distinct, as the keys of a Python dict built over a set
are. -/
def dedupIds (l : List Json) : List Json := dedupAux l []

/-- The input source as the loader can observe it: the file is missing
(`FileNotFoundError`), present but not valid JSON (`json.JSONDecodeError`), or
present and parsed to a JSON value. -/
inductive Source where
  | missing
  | invalidJson
  | parsed (j : Json)
deriving DecidableEq

/-- The embedding of `BalanceUpdater._load_team_ids`: build the set of values `team["id"]` for
each element of the parsed input.  A missing file and invalid JSON are caught
and yield the empty set; any other exception (non-iterable top level,
non-subscriptable element, missing `"id"` key, unhashable id) propagates
(`error`). -/
def loadTeamIds : Source → Except Unit (List Json)
  | .missing => .ok []
  | .invalidJson => .ok []
  | .parsed j => do
    let teams ← pyIterate j
    let ids ← teams.mapM (fun t => do
      let i ← pySubscript t "id"
      if i.hashable then pure i else Except.error ())
    pure (dedupIds ids)

/-- One page response as the fetch loop observes it: either a
`requests.exceptions.RequestException` (non-2xx status via
`raise_for_status`, connection failure, or a body that fails to parse as
JSON in `response.json()`), or a 2xx response with a parsed JSON body. -/
inductive PageResp where
  | reqError
  | ok (body : Json)
deriving DecidableEq

/-- The outcome of `BalanceUpdater._fetch_all_transactions`: the accumulated
list, or `None` (a caught `RequestException`), or an uncaught exception. -/
inductive FetchOutcome where
  | ok (txs : List Json)
  | reqError
  | crash
deriving DecidableEq

/-- The `while True` pagination loop of `_fetch_all_transactions`, with
explicit fuel (`none` = fuel exhausted, i.e. the loop has not yet terminated
within `fuel` requests).  On success the result also records the list of
offsets requested, in order.  Faithful to the source: request the page at
`offset`; a `RequestException` returns `None`; `data = body.get("data", [])`
(`AttributeError` on a non-dict body is uncaught); falsy `data` breaks with
the accumulator; `extend` over a non-iterable `data` is an uncaught
`TypeError`; a page of fewer than `limit = 100` records breaks after
retaining it; otherwise `offset += 100` and continue. -/
def fetchLoop (pages : Nat → PageResp) : Nat → Nat → List Json → Option (List Nat × FetchOutcome)
  | 0, _, _ => none
  | fuel + 1, offset, acc =>
    match pages offset with
    | .reqError => some ([offset], .reqError)
    | .ok body =>
      match body.dictGet "data" (Json.arr []) with
      | .error _ => some ([offset], .crash)
      | .ok data =>
        if data.truthy = false then some ([offset], .ok acc)
        else
          match pyIterate data with
          | .error _ => some ([offset], .crash)
          | .ok elems =>
            if elems.length < 100 then some ([offset], .ok (acc ++ elems))
            else
              match fetchLoop pages fuel (offset + 100) (acc ++ elems) with
              | none => none
              | some (offs, r) => some (offset :: offs, r)

/-- The embedding of `BalanceUpdater._fetch_all_transactions`: run the pagination loop from
offset 0 with an empty accumulator. -/
def fetchAll (pages : Nat → PageResp) (fuel : Nat) : Option (List Nat × FetchOutcome) :=
  fetchLoop pages fuel 0 []

/-- The allow-list `self.allowed_types = {"transfer", "market", "clauseIncrement"}`. -/
def allowedTypes : List String := ["transfer", "market", "clauseIncrement"]

/-- Python `tx_type in self.allowed_types`: set membership hashes the
operand, so an unhashable `tx_type` (a list or a dict) raises `TypeError`;
a hashable operand is a member exactly when it is one of the three allowed
strings (null, booleans and numbers never equal a string). -/
def isAllowedType : Json → Except Unit Bool
  | .str s => .ok (allowedTypes.contains s)
  | .arr _ => .error ()
  | .obj _ => .error ()
  | _ => .ok false

/-- The Grouped Result: the dict mapping each team id to its list of grouped
transactions, as an association list in team-id order. -/
abbrev Grouped := List (Json × List Json)

/-- The dict comprehension `grouped_data = ...`: one empty bucket per known team id. -/
def initGroups (ids : List Json) : Grouped := ids.map (fun i => (i, []))

/-- The update `grouped_data[user_id].append(tx)`: append `tx` to every entry
whose key is Python-equal to `k` (a no-op when no key matches).  Python dict
indexing compares by value, so a bool `user_id` of `True` mutates the bucket
keyed by the integer 1.  Keys coming from a Python set are pairwise
`pyEq`-distinct, so at most one entry matches. -/
def appendTx (g : Grouped) (k : Json) (tx : Json) : Grouped :=
  g.map (fun p => if pyEq p.1 k then (p.1, p.2 ++ [tx]) else p)

/-- The membership test `user_id in grouped_data`: Python dict membership by
value equality (`True in {1: []}` is `True`). -/
def containsKey (g : Grouped) (k : Json) : Bool :=
  g.any (fun p => pyEq p.1 k)

/-- The body of the `for tx in transactions` loop of `_group_transactions`:
`tx.get("type")` and `tx.get("user")` (either raises on a non-dict `tx`);
the condition `user_info and tx_type in self.allowed_types` short-circuits,
so the membership test (which raises `TypeError` on an unhashable `tx_type`)
only runs when `user_info` is truthy; then read `user_info.get("id")` (raises
on a non-dict `user_info`) and append under that id when a Python-equal key
exists (an unhashable id raises `TypeError` in the membership test). -/
def groupStep (g : Grouped) (tx : Json) : Except Unit Grouped :=
  match tx.dictGet "type" Json.null with
  | .error e => .error e
  | .ok txType =>
    match tx.dictGet "user" Json.null with
    | .error e => .error e
    | .ok userInfo =>
      if userInfo.truthy then
        match isAllowedType txType with
        | .error e => .error e
        | .ok allowed =>
          if allowed then
            match userInfo.dictGet "id" Json.null with
            | .error e => .error e
            | .ok userId =>
              if userId.hashable then
                .ok (if containsKey g userId then appendTx g userId tx else g)
              else .error ()
          else .ok g
      else .ok g

/-- The embedding of `BalanceUpdater._group_transactions`: initialise one empty bucket per team
id, then fold the loop body over the accumulated transactions in order. -/
def groupTransactions (ids : List Json) (txs : List Json) : Except Unit Grouped :=
  txs.foldlM groupStep (initGroups ids)

/-- The key under which the loop body of `_group_transactions` files `tx`
when it raises no exception: `some uid` when `tx` is appended under `uid`
provided `uid` is a known key, `none` when `tx` is discarded.  (In branches
where the loop body raises, the value returned here is irrelevant; the lemmas
that mention `selectKey` all carry the hypothesis that grouping succeeded.) -/
def selectKey (tx : Json) : Option Json :=
  match tx.dictGet "type" Json.null, tx.dictGet "user" Json.null with
  | .ok ty, .ok u =>
    if u.truthy then
      match isAllowedType ty with
      | .ok true =>
        match u.dictGet "id" Json.null with
        | .ok uid => if uid.hashable then some uid else none
        | .error _ => none
      | _ => none
    else none
  | _, _ => none

/-- Whether the loop body files `tx` into the bucket keyed `k`: the selected
user id, when there is one, must be Python-equal to `k` (so a bool id of
`True` is filed under an integer key 1, as in the program). -/
def filesUnder (k : Json) (tx : Json) : Bool :=
  match selectKey tx with
  | some uid => pyEq k uid
  | none => false

/-- The `type` field of the record as the spec reads it (null when absent or when
the record is not an object). -/
def typeField (tx : Json) : Json :=
  match tx with
  | .obj kvs => (lookupField kvs "type").getD Json.null
  | _ => Json.null

/-- The nested `user.id` field of the record as the spec reads it (null when the
record is not an object, the `user` field is not an object, or `id` is
absent). -/
def userIdField (tx : Json) : Json :=
  match tx with
  | .obj kvs =>
    match (lookupField kvs "user").getD Json.null with
    | .obj uk => (lookupField uk "id").getD Json.null
    | _ => Json.null
  | _ => Json.null

/-- A well-shaped Transaction Record per the data model of the spec: a
structured object whose `type` field is a scalar (the spec says a string;
hashability is what the membership test needs, so this is slightly broader),
whose `user` field, when present, is null or a nested object, and whose
nested id (when the user object carries one) is a scalar (hashable). -/
def isTxRecord : Json → Bool
  | .obj kvs =>
    ((lookupField kvs "type").getD Json.null).hashable &&
    (match (lookupField kvs "user").getD Json.null with
     | .null => true
     | .obj uk => ((lookupField uk "id").getD Json.null).hashable
     | _ => false)
  | _ => false

/-- The observable outcome of `BalanceUpdater.run`:
`earlyAbort` = the loader returned a falsy (empty) id set and `run` returned
with no network call and no write; `fetchFail` = `_fetch_all_transactions`
returned `None` and `run` returned with no write; `crash` = an uncaught
exception ended the process with no write; `wrote g` = the grouped result `g`
was computed and written to the output sink; `writeFail g` = `g` was computed
but the sink raised `IOError`, which `_save_results` catches and reports, so
no output exists. -/
inductive RunOutcome where
  | earlyAbort
  | fetchFail
  | crash
  | wrote (g : Grouped)
  | writeFail (g : Grouped)
deriving DecidableEq

/-- The content of the output sink after the run: `some g` exactly when the
run wrote the grouped result `g`; `none` when nothing was written. -/
def outputOf : RunOutcome → Option Grouped
  | .wrote g => some g
  | _ => none

/-- The Grouped Result computed by the run, whether or not the final write
succeeded (`none` when the run ended before grouping). -/
def producedGrouped : RunOutcome → Option Grouped
  | .wrote g => some g
  | .writeFail g => some g
  | _ => none

/-- The embedding of `BalanceUpdater.run`: load the team ids (an uncaught loader exception
crashes the run); return early when the set is falsy; fetch all transactions
(`None` aborts the run); group them (an uncaught exception crashes); save the
result (`sinkOk = false` models the sink raising `IOError`, caught and
reported inside `_save_results`). -/
def run (src : Source) (pages : Nat → PageResp) (sinkOk : Bool) (fuel : Nat) : Option RunOutcome :=
  match loadTeamIds src with
  | .error _ => some .crash
  | .ok ids =>
    if ids.isEmpty then some .earlyAbort
    else
      match fetchAll pages fuel with
      | none => none
      | some (_, .reqError) => some .fetchFail
      | some (_, .crash) => some .crash
      | some (_, .ok txs) =>
        match groupTransactions ids txs with
        | .error _ => some .crash
        | .ok g => if sinkOk then some (.wrote g) else some (.writeFail g)

/-- Whether the value is a JSON integer, the type the spec gives every
Participant Identifier. -/
def Json.isInt : Json → Bool
  | .num _ => true
  | _ => false

/-- Fixture: an allowed transfer record for user 1. -/
def txTransfer : Json := .obj [("type", .str "transfer"), ("user", .obj [("id", .num 1)])]

/-- Fixture: an allowed market record for user 2. -/
def txMarket : Json := .obj [("type", .str "market"), ("user", .obj [("id", .num 2)])]

/-- Fixture: a record whose type is outside the allow-list. -/
def txIgnoredType : Json := .obj [("type", .str "ignored"), ("user", .obj [("id", .num 1)])]

/-- Fixture: an allowed-type record whose user id is unknown. -/
def txUnknownUser : Json := .obj [("type", .str "transfer"), ("user", .obj [("id", .num 999)])]

/-- Fixture: an allowed-type record with no user field at all. -/
def txNoUser : Json := .obj [("type", .str "transfer")]

/-- Fixture: an accumulated transaction sequence exercising all grouping cases. -/
def sampleTxs : List Json := [txTransfer, txMarket, txIgnoredType, txUnknownUser, txNoUser]

/-- Fixture: an input source listing teams 1 and 2. -/
def sampleSrc : Source := .parsed (.arr [.obj [("id", .num 1)], .obj [("id", .num 2)]])

/-- Fixture: an endpoint serving one short page holding `sampleTxs`. -/
def samplePages : Nat → PageResp := fun _ => .ok (.obj [("data", .arr sampleTxs)])

/-- Fixture: the Grouped Result the program computes from the fixtures above. -/
def sampleGrouped : Grouped := [(.num 1, [txTransfer]), (.num 2, [txMarket])]

/-- Fixture: page contents for the pagination witness. -/
def samplePd : Nat → List Json := fun _ => [txTransfer, txMarket]

/-- Fixture: an endpoint serving one short page of two records. -/
def samplePagesShort : Nat → PageResp := fun _ => .ok (.obj [("data", .arr [txTransfer, txMarket])])

/-- Fixture: an input source listing only team 1. -/
def sampleSrcOne : Source := .parsed (.arr [.obj [("id", .num 1)]])

/-- Python equality never holds between an integer identifier and null. -/
lemma pyEq_null_of_isInt {k : Json} (h : k.isInt = true) : pyEq k Json.null = false := by
  cases k with
  | num n => rfl
  | null => simp [Json.isInt] at h
  | bool b => simp [Json.isInt] at h
  | str s => simp [Json.isInt] at h
  | arr xs => simp [Json.isInt] at h
  | obj kvs => simp [Json.isInt] at h

/-- Set membership of a hashable operand never raises. -/
lemma isAllowedType_ok_of_hashable {t : Json} (h : t.hashable = true) :
    ∃ b, isAllowedType t = .ok b := by
  cases t with
  | null => exact ⟨false, rfl⟩
  | bool b => exact ⟨false, rfl⟩
  | num n => exact ⟨false, rfl⟩
  | str s => exact ⟨allowedTypes.contains s, rfl⟩
  | arr xs => simp [Json.hashable] at h
  | obj kvs => simp [Json.hashable] at h

/-- Keys of an association list built by pairing each element with a value. -/
lemma map_fst_pairs (ids : List Json) (F : Json → List Json) :
    (ids.map (fun i => (i, F i))).map Prod.fst = ids := by
  induction ids with
  | nil => rfl
  | cons x xs ih => simp only [List.map_cons, ih]

/-- Characterisation of one non-raising pass of the grouping loop body: either
the record is discarded (`selectKey` is none) and the dict is unchanged, or it
is appended under its selected key when that key is present. -/
lemma groupStep_ok_char {g g₁ : Grouped} {tx : Json} (h : groupStep g tx = .ok g₁) :
    (selectKey tx = none ∧ g₁ = g) ∨
    ∃ k, selectKey tx = some k ∧ g₁ = if containsKey g k then appendTx g k tx else g := by
  unfold groupStep at h
  unfold selectKey
  cases hty : tx.dictGet "type" Json.null with
  | error e => rw [hty] at h; cases h
  | ok ty =>
    rw [hty] at h
    cases hus : tx.dictGet "user" Json.null with
    | error e => rw [hus] at h; cases h
    | ok u =>
      rw [hus] at h
      dsimp only at h ⊢
      by_cases htr : u.truthy = true
      · rw [if_pos htr] at h
        rw [if_pos htr]
        cases hal : isAllowedType ty with
        | error e => rw [hal] at h; cases h
        | ok b =>
          rw [hal] at h
          dsimp only at h ⊢
          cases b with
          | false =>
            rw [if_neg (by simp)] at h
            left
            cases h
            exact ⟨rfl, rfl⟩
          | true =>
            rw [if_pos rfl] at h
            cases hid : u.dictGet "id" Json.null with
            | error e => rw [hid] at h; cases h
            | ok uid =>
              rw [hid] at h
              dsimp only at h ⊢
              by_cases hh : uid.hashable = true
              · rw [if_pos hh] at h
                rw [if_pos hh]
                right
                exact ⟨uid, rfl, (Except.ok.injEq _ _ ▸ h).symm⟩
              · rw [if_neg hh] at h; cases h
      · rw [if_neg htr] at h
        rw [if_neg htr]
        left
        cases h
        exact ⟨rfl, rfl⟩

/-- Master lemma: a grouping fold that raises no exception maps each entry to
its old bucket extended by the records of the remaining list filed under that
key (Python value equality between key and selected user id), in order. -/
lemma groupFold_ok_eq (txs : List Json) : ∀ (g g' : Grouped),
    txs.foldlM groupStep g = .ok g' →
    g' = g.map (fun p => (p.1, p.2 ++ txs.filter (filesUnder p.1))) := by
  induction txs with
  | nil =>
    intro g g' h
    simp only [List.foldlM_nil, pure, Except.pure, Except.ok.injEq] at h
    subst h
    simp
  | cons tx txs ih =>
    intro g g' h
    rw [List.foldlM_cons] at h
    cases hstep : groupStep g tx with
    | error e => rw [hstep] at h; cases h
    | ok g₁ =>
      rw [hstep] at h
      have h2 : txs.foldlM groupStep g₁ = .ok g' := h
      have ihg := ih g₁ g' h2
      rcases groupStep_ok_char hstep with ⟨hsel, hg₁⟩ | ⟨k, hsel, hg₁⟩
      · subst hg₁
        rw [ihg]
        apply List.map_congr_left
        intro p _
        have hfu : filesUnder p.1 tx = false := by
          unfold filesUnder
          rw [hsel]
        rw [List.filter_cons]
        simp [hfu]
      · by_cases hck : containsKey g k = true
        · rw [if_pos hck] at hg₁
          subst hg₁
          rw [ihg]
          unfold appendTx
          rw [List.map_map]
          apply List.map_congr_left
          intro p _
          by_cases hpk : pyEq p.1 k = true
          · have hfu : filesUnder p.1 tx = true := by
              unfold filesUnder
              rw [hsel]
              exact hpk
            simp only [Function.comp, if_pos hpk, List.filter_cons]
            simp [hfu, List.append_assoc]
          · have hpk2 : pyEq p.1 k = false := by
              cases hpe : pyEq p.1 k with
              | false => rfl
              | true => exact absurd hpe hpk
            have hfu : filesUnder p.1 tx = false := by
              unfold filesUnder
              rw [hsel]
              exact hpk2
            simp only [Function.comp, if_neg hpk, List.filter_cons]
            simp [hfu]
        · rw [if_neg hck] at hg₁
          subst hg₁
          rw [ihg]
          apply List.map_congr_left
          intro p hp
          have hnk : pyEq p.1 k = false := by
            cases hpe : pyEq p.1 k with
            | false => rfl
            | true =>
              exact absurd (by
                unfold containsKey
                rw [List.any_eq_true]
                exact ⟨p, hp, hpe⟩) hck
          have hfu : filesUnder p.1 tx = false := by
            unfold filesUnder
            rw [hsel]
            exact hnk
          rw [List.filter_cons]
          simp [hfu]

/-- A successful `_group_transactions` produces exactly one bucket per team
id, holding in arrival order the transactions filed under that id. -/
lemma groupTransactions_ok_eq {ids txs : List Json} {g : Grouped}
    (h : groupTransactions ids txs = .ok g) :
    g = ids.map (fun i => (i, txs.filter (filesUnder i))) := by
  have := groupFold_ok_eq txs (initGroups ids) g h
  rw [this]
  unfold initGroups
  rw [List.map_map]
  simp [Function.comp]

/-- On a well-shaped Transaction Record the loop body never raises. -/
lemma groupStep_total {tx : Json} (h : isTxRecord tx = true) (g : Grouped) :
    ∃ g₁, groupStep g tx = .ok g₁ := by
  cases tx with
  | null => simp [isTxRecord] at h
  | bool b => simp [isTxRecord] at h
  | num n => simp [isTxRecord] at h
  | str s => simp [isTxRecord] at h
  | arr xs => simp [isTxRecord] at h
  | obj kvs =>
    unfold isTxRecord at h
    dsimp only at h
    rw [Bool.and_eq_true] at h
    obtain ⟨hty, hus⟩ := h
    dsimp only [groupStep, Json.dictGet]
    cases hu : (lookupField kvs "user").getD Json.null with
    | null => exact ⟨g, by simp [Json.truthy]⟩
    | bool b => rw [hu] at hus; simp at hus
    | num n => rw [hu] at hus; simp at hus
    | str s => rw [hu] at hus; simp at hus
    | arr xs => rw [hu] at hus; simp at hus
    | obj uk =>
      rw [hu] at hus
      dsimp only at hus
      by_cases htr : (Json.obj uk).truthy = true
      · rw [if_pos htr]
        obtain ⟨b, hb⟩ := isAllowedType_ok_of_hashable hty
        rw [hb]
        dsimp only
        cases b with
        | false => exact ⟨g, by simp⟩
        | true =>
          rw [if_pos rfl]
          rw [if_pos hus]
          exact ⟨_, rfl⟩
      · rw [if_neg htr]
        exact ⟨g, rfl⟩

/-- When a well-shaped record is selected for some key, its type passed the
allow-list test and the key is exactly its nested user id. -/
lemma selectKey_some_char {tx uid : Json} (hwf : isTxRecord tx = true)
    (h : selectKey tx = some uid) :
    isAllowedType (typeField tx) = .ok true ∧ uid = userIdField tx := by
  cases tx with
  | null => simp [isTxRecord] at hwf
  | bool b => simp [isTxRecord] at hwf
  | num n => simp [isTxRecord] at hwf
  | str s => simp [isTxRecord] at hwf
  | arr xs => simp [isTxRecord] at hwf
  | obj kvs =>
    unfold isTxRecord at hwf
    dsimp only at hwf
    rw [Bool.and_eq_true] at hwf
    obtain ⟨hty, hus⟩ := hwf
    unfold selectKey at h
    dsimp only [Json.dictGet] at h
    dsimp only [typeField, userIdField]
    cases hu : (lookupField kvs "user").getD Json.null with
    | null =>
      rw [hu] at h
      simp [Json.truthy] at h
    | bool b => rw [hu] at hus; simp at hus
    | num n => rw [hu] at hus; simp at hus
    | str s => rw [hu] at hus; simp at hus
    | arr xs => rw [hu] at hus; simp at hus
    | obj uk =>
      rw [hu] at h hus
      dsimp only at h hus
      by_cases htr : (Json.obj uk).truthy = true
      · rw [if_pos htr] at h
        cases hal : isAllowedType ((lookupField kvs "type").getD Json.null) with
        | error e => rw [hal] at h; simp at h
        | ok b =>
          rw [hal] at h
          cases b with
          | false => simp at h
          | true =>
            dsimp only at h
            rw [if_pos hus] at h
            injection h with h1
            exact ⟨rfl, h1.symm⟩
      · rw [if_neg htr] at h
        cases h
 
/-- When a well-shaped record has an allowed type and a non-null user id,
the loop body selects it for exactly that id.  (A falsy or absent user object
makes the id read as null, so non-null rules those cases out.) -/
lemma selectKey_eq_some_userId {tx : Json} (hwf : isTxRecord tx = true)
    (hal : isAllowedType (typeField tx) = .ok true)
    (hnn : userIdField tx ≠ Json.null) :
    selectKey tx = some (userIdField tx) := by
  cases tx with
  | null => simp [isTxRecord] at hwf
  | bool b => simp [isTxRecord] at hwf
  | num n => simp [isTxRecord] at hwf
  | str s => simp [isTxRecord] at hwf
  | arr xs => simp [isTxRecord] at hwf
  | obj kvs =>
    unfold isTxRecord at hwf
    dsimp only at hwf
    rw [Bool.and_eq_true] at hwf
    obtain ⟨hty, hus⟩ := hwf
    dsimp only [typeField] at hal
    unfold selectKey
    dsimp only [Json.dictGet]
    dsimp only [userIdField] at hnn ⊢
    cases hu : (lookupField kvs "user").getD Json.null with
    | null =>
      rw [hu] at hnn
      exact absurd rfl hnn
    | bool b => rw [hu] at hus; simp at hus
    | num n => rw [hu] at hus; simp at hus
    | str s => rw [hu] at hus; simp at hus
    | arr xs => rw [hu] at hus; simp at hus
    | obj uk =>
      rw [hu] at hus hnn
      dsimp only at hus hnn ⊢
      cases uk with
      | nil => exact absurd rfl hnn
      | cons q rest =>
        have htr : (Json.obj (q :: rest)).truthy = true := rfl
        rw [if_pos htr, hal]
        dsimp only
        rw [if_pos hus]

/-- A grouping fold over well-shaped records never raises. -/
lemma groupFold_total (txs : List Json) : ∀ g : Grouped,
    (∀ tx ∈ txs, isTxRecord tx = true) →
    ∃ g', txs.foldlM groupStep g = .ok g' := by
  induction txs with
  | nil => intro g _; exact ⟨g, rfl⟩
  | cons tx txs ih =>
    intro g hwf
    obtain ⟨g₁, hstep⟩ := groupStep_total (hwf tx (List.mem_cons_self tx txs)) g
    obtain ⟨g', hrest⟩ := ih g₁ (fun t ht => hwf t (List.mem_cons_of_mem tx ht))
    refine ⟨g', ?_⟩
    rw [List.foldlM_cons, hstep]
    exact hrest

/-- Fidelity check: with the integer key 1 and a record whose user id is the
boolean true, the program appends the record under key 1 (Python equates
True with 1), and so does the model. -/
lemma bool_id_files_under_int_key :
    groupTransactions [Json.num 1]
      [Json.obj [("type", Json.str "transfer"), ("user", Json.obj [("id", Json.bool true)])]] =
      .ok [(Json.num 1,
        [Json.obj [("type", Json.str "transfer"), ("user", Json.obj [("id", Json.bool true)])]])] :=
  rfl

/-- Fidelity check: a truthy user together with an unhashable type value
raises TypeError inside the set-membership test, and so does the model. -/
lemma unhashable_type_raises :
    groupTransactions [Json.num 1]
      [Json.obj [("type", Json.arr []), ("user", Json.obj [("id", Json.num 1)])]] =
      .error () :=
  rfl

/-- Fidelity check: a Python set collapses 1 and True to one element, keeping
the first inserted, and so does the loader model. -/
lemma set_collapses_bool_and_int :
    loadTeamIds (.parsed (Json.arr [Json.obj [("id", Json.num 1)],
      Json.obj [("id", Json.bool true)]])) = .ok [Json.num 1] :=
  rfl

/-- One loop step: a transport error at the requested offset ends the fetch
with the `None` result. -/
lemma fetchLoop_reqError {pages : Nat → PageResp} {off : Nat} (h : pages off = .reqError)
    (f : Nat) (acc : List Json) :
    fetchLoop pages (f + 1) off acc = some ([off], .reqError) := by
  simp [fetchLoop, h]

/-- One loop step: a falsy `data` value ends the loop, returning what was
accumulated so far. -/
lemma fetchLoop_falsyData {pages : Nat → PageResp} {off : Nat} {body d : Json}
    (h : pages off = .ok body) (hd : body.dictGet "data" (Json.arr []) = .ok d)
    (ht : d.truthy = false) (f : Nat) (acc : List Json) :
    fetchLoop pages (f + 1) off acc = some ([off], .ok acc) := by
  simp [fetchLoop, h, hd, ht]

/-- One loop step: a non-empty page of fewer than 100 records is retained and
ends the loop. -/
lemma fetchLoop_shortPage {pages : Nat → PageResp} {off : Nat} {body : Json} {l : List Json}
    (h : pages off = .ok body) (hd : body.dictGet "data" (Json.arr []) = .ok (Json.arr l))
    (hne : l ≠ []) (hlen : l.length < 100) (f : Nat) (acc : List Json) :
    fetchLoop pages (f + 1) off acc = some ([off], .ok (acc ++ l)) := by
  have ht : (Json.arr l).truthy = true := by
    cases l with
    | nil => exact absurd rfl hne
    | cons x xs => rfl
  simp [fetchLoop, h, hd, ht, pyIterate, hlen]

/-- One loop step: a page of at least 100 records is retained and the loop
continues at the next offset. -/
lemma fetchLoop_fullPage {pages : Nat → PageResp} {off : Nat} {body : Json} {l : List Json}
    (h : pages off = .ok body) (hd : body.dictGet "data" (Json.arr []) = .ok (Json.arr l))
    (hlen : 100 ≤ l.length) (f : Nat) (acc : List Json) :
    fetchLoop pages (f + 1) off acc =
      match fetchLoop pages f (off + 100) (acc ++ l) with
      | none => none
      | some (offs, r) => some (off :: offs, r) := by
  have ht : (Json.arr l).truthy = true := by
    cases l with
    | nil => simp at hlen
    | cons x xs => rfl
  simp [fetchLoop, h, hd, ht, pyIterate, Nat.not_lt.mpr hlen]

/-- Running the loop across `d` consecutive full pages accumulates their
concatenation and continues `d` offsets (of 100) further on. -/
lemma fetchLoop_advance (pages : Nat → PageResp) (pd : Nat → List Json) :
    ∀ (d j f : Nat) (acc : List Json),
    (∀ i, i < d → pages (100 * (j + i)) = .ok (Json.obj [("data", Json.arr (pd (j + i)))])) →
    (∀ i, i < d → 100 ≤ (pd (j + i)).length) →
    fetchLoop pages (d + f) (100 * j) acc =
      match fetchLoop pages f (100 * (j + d)) (acc ++ ((List.range d).map (fun i => pd (j + i))).flatten) with
      | none => none
      | some (offs, r) => some ((List.range d).map (fun i => 100 * (j + i)) ++ offs, r) := by
  intro d
  induction d with
  | zero =>
    intro j f acc _ _
    rcases hE : fetchLoop pages f (100 * (j + 0)) (acc ++ ((List.range 0).map (fun i => pd (j + i))).flatten) with _ | ⟨offs, r⟩
    · simp only [List.range_zero, List.map_nil, List.flatten_nil, List.append_nil,
        Nat.add_zero, Nat.zero_add] at hE ⊢
      rw [hE]
    · simp only [List.range_zero, List.map_nil, List.flatten_nil, List.append_nil,
        Nat.add_zero, Nat.zero_add] at hE ⊢
      rw [hE]
      simp
  | succ d ihd =>
    intro j f acc hshape hfull
    have h0 : pages (100 * j) = .ok (Json.obj [("data", Json.arr (pd j))]) := by
      have := hshape 0 (by omega)
      simpa using this
    have hl0 : 100 ≤ (pd j).length := by
      have := hfull 0 (by omega)
      simpa using this
    have hd0 : (Json.obj [("data", Json.arr (pd j))]).dictGet "data" (Json.arr []) =
        .ok (Json.arr (pd j)) := rfl
    have hfuel : d + 1 + f = (d + f) + 1 := by omega
    rw [hfuel, fetchLoop_fullPage h0 hd0 hl0]
    rw [show (100 * j + 100 : Nat) = 100 * (j + 1) by ring]
    have ih2 := ihd (j + 1) f (acc ++ pd j)
      (fun i hi => by
        have := hshape (i + 1) (by omega)
        rw [show j + 1 + i = j + (i + 1) by omega]
        exact this)
      (fun i hi => by
        have := hfull (i + 1) (by omega)
        rw [show j + 1 + i = j + (i + 1) by omega]
        exact this)
    rw [ih2]
    have hoff : 100 * (j + 1 + d) = 100 * (j + (d + 1)) := by ring
    have hacc : (acc ++ pd j) ++ ((List.range d).map (fun i => pd (j + 1 + i))).flatten =
        acc ++ ((List.range (d + 1)).map (fun i => pd (j + i))).flatten := by
      rw [List.range_succ_eq_map, List.map_cons, List.map_map, List.flatten_cons,
        List.append_assoc]
      congr 2
      congr 1
      apply List.map_congr_left
      intro i _
      simp [Function.comp, Nat.add_comm, Nat.add_left_comm, Nat.add_assoc]
    rw [hoff, hacc]
    rcases hE : fetchLoop pages f (100 * (j + (d + 1)))
        (acc ++ ((List.range (d + 1)).map (fun i => pd (j + i))).flatten) with _ | ⟨offs, r⟩
    · rfl
    · dsimp only
      congr 1
      rw [List.range_succ_eq_map, List.map_cons, List.map_map]
      rw [List.cons_append]
      congr 2
      congr 1
      apply List.map_congr_left
      intro i _
      simp [Function.comp, Nat.add_comm, Nat.add_left_comm, Nat.add_assoc]

/-- Claim C1 (confirmed): for every run that produces a Grouped Result, the
key list of that result is exactly the Participant Identifier list loaded
from the input: every key is a loaded identifier, every loaded identifier
appears as a key (with an empty bucket when nothing matched), and no
synthetic key is ever created. -/
theorem grouped_keys_eq_loaded_ids (src : Source) (pages : Nat → PageResp) (sinkOk : Bool)
    (fuel : Nat) (r : RunOutcome) (g : Grouped)
    (hrun : run src pages sinkOk fuel = some r)
    (hg : producedGrouped r = some g) :
    ∃ ids, loadTeamIds src = .ok ids ∧ g.map Prod.fst = ids ∧
      ∀ k, (∃ b, (k, b) ∈ g) ↔ k ∈ ids := by
  unfold run at hrun
  cases hload : loadTeamIds src with
  | error e =>
    rw [hload] at hrun
    injection hrun with h
    subst h
    simp [producedGrouped] at hg
  | ok ids =>
    rw [hload] at hrun
    dsimp only at hrun
    by_cases hemp : ids.isEmpty
    · rw [if_pos hemp] at hrun
      injection hrun with h
      subst h
      simp [producedGrouped] at hg
    · rw [if_neg hemp] at hrun
      cases hfetch : fetchAll pages fuel with
      | none => rw [hfetch] at hrun; cases hrun
      | some pr =>
        rw [hfetch] at hrun
        obtain ⟨offs, out⟩ := pr
        cases out with
        | reqError =>
          dsimp only at hrun
          injection hrun with h
          subst h
          simp [producedGrouped] at hg
        | crash =>
          dsimp only at hrun
          injection hrun with h
          subst h
          simp [producedGrouped] at hg
        | ok txs =>
          dsimp only at hrun
          cases hgr : groupTransactions ids txs with
          | error e =>
            rw [hgr] at hrun
            injection hrun with h
            subst h
            simp [producedGrouped] at hg
          | ok g' =>
            rw [hgr] at hrun
            dsimp only at hrun
            have hgg : g = g' := by
              cases sinkOk with
              | true =>
                rw [if_pos rfl] at hrun
                injection hrun with h
                subst h
                simp [producedGrouped] at hg
                exact hg.symm
              | false =>
                rw [if_neg (by simp)] at hrun
                injection hrun with h
                subst h
                simp [producedGrouped] at hg
                exact hg.symm
            subst hgg
            have heq := groupTransactions_ok_eq hgr
            refine ⟨ids, rfl, ?_, ?_⟩
            · rw [heq]
              exact map_fst_pairs ids _
            · intro k
              constructor
              · rintro ⟨b, hkb⟩
                rw [heq] at hkb
                obtain ⟨i, hi, hpair⟩ := List.mem_map.mp hkb
                injection hpair with h1 h2
                exact h1 ▸ hi
              · intro hk
                rw [heq]
                exact ⟨_, List.mem_map.mpr ⟨k, hk, rfl⟩⟩

/-- Witness for C1 at a concrete run that writes a Grouped Result. -/
theorem grouped_keys_eq_loaded_ids_witness :
    ∃ ids, loadTeamIds sampleSrc = .ok ids ∧ sampleGrouped.map Prod.fst = ids ∧
      ∀ k, (∃ b, (k, b) ∈ sampleGrouped) ↔ k ∈ ids :=
  grouped_keys_eq_loaded_ids sampleSrc samplePages true 5 (.wrote sampleGrouped) sampleGrouped
    rfl rfl

/-- Claim C2 (confirmed): over well-shaped Transaction Records (per the spec,
an object whose type is a scalar and whose user field is absent, null or a
nested object with a scalar id) and integer Participant Identifiers, the
grouping pass raises no error, and it appends a record to the bucket keyed
`k` exactly when its `type` is in the allow-list and its nested `user.id` is
Python-equal to the known identifier `k` (Python `==`, which equates booleans
with 0 and 1, is what dict membership and indexing use); a record failing
either condition (in particular one whose `user.id` is absent, which reads as
null and never equals an integer identifier) appears in no bucket. -/
theorem group_membership_iff (ids txs : List Json)
    (hwf : ∀ tx ∈ txs, isTxRecord tx = true)
    (hint : ∀ i ∈ ids, i.isInt = true) :
    ∃ g, groupTransactions ids txs = .ok g ∧
      ∀ tx ∈ txs, ∀ k : Json,
        (∃ b, (k, b) ∈ g ∧ tx ∈ b) ↔
          (isAllowedType (typeField tx) = .ok true ∧ pyEq k (userIdField tx) = true ∧
            k ∈ ids) := by
  obtain ⟨g, hg⟩ := groupFold_total txs (initGroups ids) hwf
  have heq := groupTransactions_ok_eq hg
  refine ⟨g, hg, ?_⟩
  intro tx htx k
  constructor
  · rintro ⟨b, hkb, htxb⟩
    rw [heq] at hkb
    obtain ⟨i, hi, hpair⟩ := List.mem_map.mp hkb
    injection hpair with h1 h2
    subst h2
    have hfu : filesUnder i tx = true := (List.mem_filter.mp htxb).2
    unfold filesUnder at hfu
    cases hsel : selectKey tx with
    | none => rw [hsel] at hfu; cases hfu
    | some uid =>
      rw [hsel] at hfu
      obtain ⟨hal, huid⟩ := selectKey_some_char (hwf tx htx) hsel
      refine ⟨hal, ?_, h1 ▸ hi⟩
      rw [← h1, ← huid]
      exact hfu
  · rintro ⟨hal, hpe, hkin⟩
    have hnn : userIdField tx ≠ Json.null := by
      intro hid
      rw [hid, pyEq_null_of_isInt (hint k hkin)] at hpe
      cases hpe
    have hsel := selectKey_eq_some_userId (hwf tx htx) hal hnn
    refine ⟨txs.filter (filesUnder k), ?_, ?_⟩
    · rw [heq]
      exact List.mem_map.mpr ⟨k, hkin, rfl⟩
    · refine List.mem_filter.mpr ⟨htx, ?_⟩
      unfold filesUnder
      rw [hsel]
      exact hpe

/-- Witness for C2 on the fixture transactions and the id set 1, 2. -/
theorem group_membership_iff_witness :
    ∃ g, groupTransactions [Json.num 1, Json.num 2] sampleTxs = .ok g ∧
      ∀ tx ∈ sampleTxs, ∀ k : Json,
        (∃ b, (k, b) ∈ g ∧ tx ∈ b) ↔
          (isAllowedType (typeField tx) = .ok true ∧ pyEq k (userIdField tx) = true ∧
            k ∈ [Json.num 1, Json.num 2]) :=
  group_membership_iff [Json.num 1, Json.num 2] sampleTxs (by decide) (by decide)

/-- Claim C3 (confirmed): against an endpoint serving well-formed pages, the
pagination loop requests offsets 0, 100, ..., 100k in order with limit 100,
continues past every full page, stops at the first page of fewer than 100
records (a zero-record page retains nothing, a short page is retained), and
returns the concatenation of all fetched pages in page order then within-page
order, whose length is the sum of the lengths of the fetched pages. -/
theorem pagination_loop_spec (pages : Nat → PageResp) (pd : Nat → List Json) (k fuel : Nat)
    (hshape : ∀ i, i ≤ k → pages (100 * i) = .ok (Json.obj [("data", Json.arr (pd i))]))
    (hfull : ∀ i, i < k → 100 ≤ (pd i).length)
    (hshort : (pd k).length < 100)
    (hfuel : k < fuel) :
    fetchAll pages fuel =
      some ((List.range (k + 1)).map (fun i => 100 * i),
        .ok (((List.range (k + 1)).map pd).flatten)) ∧
    (((List.range (k + 1)).map pd).flatten).length =
      (((List.range (k + 1)).map pd).map List.length).sum := by
  constructor
  · obtain ⟨f, rfl⟩ : ∃ f, fuel = k + (f + 1) := ⟨fuel - k - 1, by omega⟩
    unfold fetchAll
    have hadv := fetchLoop_advance pages pd k 0 (f + 1) []
      (fun i hi => by simpa using hshape i (le_of_lt hi))
      (fun i hi => by simpa using hfull i hi)
    simp only [Nat.zero_add, Nat.mul_zero, List.nil_append] at hadv
    rw [hadv]
    by_cases hpk : pd k = []
    · rw [fetchLoop_falsyData (hshape k le_rfl) rfl (by rw [hpk]; rfl) f
        (((List.range k).map (fun i => pd i)).flatten)]
      dsimp only
      rw [List.range_succ, List.map_append, List.map_append, List.flatten_append]
      simp [hpk]
    · rw [fetchLoop_shortPage (hshape k le_rfl) rfl hpk hshort f
        (((List.range k).map (fun i => pd i)).flatten)]
      dsimp only
      rw [List.range_succ, List.map_append, List.map_append, List.flatten_append]
      simp
  · exact List.length_flatten _

/-- Witness for C3: one short page of two records, fetched at offset 0. -/
theorem pagination_loop_spec_witness :
    fetchAll samplePagesShort 1 =
      some ((List.range (0 + 1)).map (fun i => 100 * i),
        .ok (((List.range (0 + 1)).map samplePd).flatten)) ∧
    (((List.range (0 + 1)).map samplePd).flatten).length =
      (((List.range (0 + 1)).map samplePd).map List.length).sum :=
  pagination_loop_spec samplePagesShort samplePd 0 1 (fun i _ => rfl)
    (fun i hi => absurd hi (Nat.not_lt_zero i)) (by decide) (by decide)

/-- Claim C4 (confirmed): when a page request fails at the transport level
(non-success status, connection failure, or unparseable body: all raise a
caught RequestException) after a prefix of full pages, the loop stops at that
offset with no retry (each offset is requested once), everything accumulated
is discarded, the run ends as `fetchFail` whatever the sink does, and no
output is written. -/
theorem transport_error_aborts_run (src : Source) (pages : Nat → PageResp) (pd : Nat → List Json)
    (sinkOk : Bool) (ids : List Json) (j fuel : Nat)
    (hload : loadTeamIds src = .ok ids) (hne : ids ≠ [])
    (hshape : ∀ i, i < j → pages (100 * i) = .ok (Json.obj [("data", Json.arr (pd i))]))
    (hfull : ∀ i, i < j → 100 ≤ (pd i).length)
    (herr : pages (100 * j) = .reqError)
    (hfuel : j < fuel) :
    fetchAll pages fuel = some ((List.range (j + 1)).map (fun i => 100 * i), .reqError) ∧
    run src pages sinkOk fuel = some .fetchFail ∧
    outputOf RunOutcome.fetchFail = none := by
  have hfa : fetchAll pages fuel = some ((List.range (j + 1)).map (fun i => 100 * i), .reqError) := by
    obtain ⟨f, rfl⟩ : ∃ f, fuel = j + (f + 1) := ⟨fuel - j - 1, by omega⟩
    unfold fetchAll
    have hadv := fetchLoop_advance pages pd j 0 (f + 1) []
      (fun i hi => by simpa using hshape i hi)
      (fun i hi => by simpa using hfull i hi)
    simp only [Nat.zero_add, Nat.mul_zero, List.nil_append] at hadv
    rw [hadv]
    rw [fetchLoop_reqError herr]
    dsimp only
    rw [List.range_succ, List.map_append]
    simp
  refine ⟨hfa, ?_, rfl⟩
  unfold run
  rw [hload]
  dsimp only
  have hemp : ids.isEmpty = false := by
    cases ids with
    | nil => exact absurd rfl hne
    | cons x xs => rfl
  rw [if_neg (by simp [hemp])]
  rw [hfa]

/-- Witness for C4: the endpoint fails at the first request. -/
theorem transport_error_aborts_run_witness :
    fetchAll (fun _ => PageResp.reqError) 1 =
      some ((List.range (0 + 1)).map (fun i => 100 * i), .reqError) ∧
    run sampleSrcOne (fun _ => PageResp.reqError) true 1 = some .fetchFail ∧
    outputOf RunOutcome.fetchFail = none :=
  transport_error_aborts_run sampleSrcOne (fun _ => PageResp.reqError) (fun _ => []) true
    [Json.num 1] 0 1 rfl (by decide) (fun i hi => absurd hi (Nat.not_lt_zero i))
    (fun i hi => absurd hi (Nat.not_lt_zero i)) rfl (by decide)

/-- Claim C5 counterexample: a source that parses as JSON but is not an array
of objects with integer ids (its one id is the string value x) is not
rejected: the run proceeds, consults the endpoint, and writes output, against
the claim that such a source aborts the run with no output written. -/
theorem invalid_structure_not_aborted :
    run (.parsed (Json.arr [Json.obj [("id", Json.str "x")]]))
      (fun _ => .ok (Json.obj [("data", Json.arr [])])) true 1 =
      some (.wrote [(Json.str "x", [])]) ∧
    outputOf (RunOutcome.wrote [(Json.str "x", [])]) = some [(Json.str "x", [])] :=
  ⟨rfl, rfl⟩

/-- Claim C5 (corrected): a missing input source and a source that does not
parse as JSON both make the loader return the empty set, so the run aborts
with no output and without consulting the endpoint (the outcome is the same
for every `pages` argument, so no network call can have been made).  The
original claim also demanded an abort for sources that parse as JSON but
violate the expected structure; `invalid_structure_not_aborted` refutes
that. -/
theorem loader_failure_aborts_run (pages : Nat → PageResp) (sinkOk : Bool) (fuel : Nat) :
    run .missing pages sinkOk fuel = some .earlyAbort ∧
    run .invalidJson pages sinkOk fuel = some .earlyAbort ∧
    outputOf RunOutcome.earlyAbort = none :=
  ⟨rfl, rfl, rfl⟩

/-- Claim C6 (confirmed): the grouping pass is deterministic: two runs of the
pass over the same accumulated sequence and the same identifier set return
equal (hence byte-identical once serialised) Grouped Results.  The embedding
makes the pass a pure function of exactly these two inputs. -/
theorem grouping_deterministic (ids txs : List Json) (r₁ r₂ : Except Unit Grouped)
    (h₁ : groupTransactions ids txs = r₁) (h₂ : groupTransactions ids txs = r₂) :
    r₁ = r₂ := by
  rw [← h₁, ← h₂]

/-- Witness for C6 at a concrete input. -/
theorem grouping_deterministic_witness :
    groupTransactions [Json.num 1] [txTransfer] = groupTransactions [Json.num 1] [txTransfer] :=
  grouping_deterministic [Json.num 1] [txTransfer] _ _ rfl rfl

/-- Claim C7 (confirmed): every bucket of a successfully produced Grouped
Result is exactly the filtered subsequence of the accumulated transactions
that the loop body files under that key (the selected user id Python-equal
to the bucket key, as dict indexing compares), in arrival order; filtering
keeps each retained record verbatim. -/
theorem bucket_eq_filtered_subsequence (ids txs : List Json) (g : Grouped)
    (h : groupTransactions ids txs = .ok g) :
    ∀ k b, (k, b) ∈ g → b = txs.filter (filesUnder k) := by
  intro k b hkb
  rw [groupTransactions_ok_eq h] at hkb
  obtain ⟨i, hi, hpair⟩ := List.mem_map.mp hkb
  injection hpair with h1 h2
  subst h1
  exact h2.symm

/-- Witness for C7: the bucket of user 1 over the fixture transactions. -/
theorem bucket_eq_filtered_subsequence_witness :
    [txTransfer] = sampleTxs.filter (filesUnder (Json.num 1)) :=
  bucket_eq_filtered_subsequence [Json.num 1, Json.num 2] sampleTxs sampleGrouped rfl
    (Json.num 1) [txTransfer] (by decide)

/-- Claim C8 (confirmed): when writing the output sink fails, no reachable
run outcome carries written output: the IOError is caught and reported inside
the save step, nothing is persisted, and the computed Grouped Result is
lost with the process. -/
theorem sink_failure_writes_no_output (src : Source) (pages : Nat → PageResp) (fuel : Nat)
    (r : RunOutcome) (hrun : run src pages false fuel = some r) :
    outputOf r = none := by
  unfold run at hrun
  cases hload : loadTeamIds src with
  | error e => rw [hload] at hrun; injection hrun with h; subst h; rfl
  | ok ids =>
    rw [hload] at hrun
    dsimp only at hrun
    by_cases hemp : ids.isEmpty
    · rw [if_pos hemp] at hrun; injection hrun with h; subst h; rfl
    · rw [if_neg hemp] at hrun
      cases hfetch : fetchAll pages fuel with
      | none => rw [hfetch] at hrun; cases hrun
      | some pr =>
        rw [hfetch] at hrun
        obtain ⟨offs, out⟩ := pr
        cases out with
        | reqError => dsimp only at hrun; injection hrun with h; subst h; rfl
        | crash => dsimp only at hrun; injection hrun with h; subst h; rfl
        | ok txs =>
          dsimp only at hrun
          cases hgr : groupTransactions ids txs with
          | error e => rw [hgr] at hrun; injection hrun with h; subst h; rfl
          | ok g' =>
            rw [hgr] at hrun
            dsimp only at hrun
            rw [if_neg (by simp)] at hrun
            injection hrun with h
            subst h
            rfl

/-- Witness for C8: a run that groups successfully but cannot write. -/
theorem sink_failure_writes_no_output_witness :
    outputOf (RunOutcome.writeFail sampleGrouped) = none :=
  sink_failure_writes_no_output sampleSrc samplePages 5 (RunOutcome.writeFail sampleGrouped) rfl

/-- Claim C9 counterexample: a body parsing successfully to the JSON array []
lacks a `data` field, yet the loop does not treat it as a zero-record page:
calling .get on a non-dict raises an uncaught AttributeError, so the fetch
crashes instead of ending normally with the accumulated (empty) list. -/
theorem array_body_crashes_loop :
    fetchAll (fun _ => PageResp.ok (Json.arr [])) 1 = some ([0], FetchOutcome.crash) ∧
    fetchAll (fun _ => PageResp.ok (Json.arr [])) 1 ≠ some ([0], FetchOutcome.ok []) :=
  ⟨rfl, by decide⟩

/-- Claim C9 (corrected): for a page body that parses to a JSON object
lacking a `data` field, or whose `data` is null, the loop treats the page as
a zero-record page and terminates normally as end-of-data, keeping what was
accumulated; the original claim said this for every successfully parsing
body, but `array_body_crashes_loop` shows non-object bodies crash instead. -/
theorem missing_data_field_ends_pagination (pages : Nat → PageResp) (off f : Nat)
    (acc : List Json) (kvs : List (String × Json))
    (hpage : pages off = .ok (Json.obj kvs))
    (hdata : lookupField kvs "data" = none ∨ lookupField kvs "data" = some Json.null) :
    fetchLoop pages (f + 1) off acc = some ([off], .ok acc) := by
  rcases hdata with hnone | hnull
  · have hd : (Json.obj kvs).dictGet "data" (Json.arr []) = .ok (Json.arr []) := by
      simp [Json.dictGet, hnone]
    exact fetchLoop_falsyData hpage hd rfl f acc
  · have hd : (Json.obj kvs).dictGet "data" (Json.arr []) = .ok Json.null := by
      simp [Json.dictGet, hnull]
    exact fetchLoop_falsyData hpage hd rfl f acc

/-- Witness for C9 on a body that is an object with no fields. -/
theorem missing_data_field_ends_pagination_witness :
    fetchLoop (fun _ => PageResp.ok (Json.obj [])) (0 + 1) 0 [] = some ([0], .ok []) :=
  missing_data_field_ends_pagination (fun _ => PageResp.ok (Json.obj [])) 0 0 [] [] rfl
    (Or.inl rfl)

/-- Claim C10 (confirmed): a valid JSON array holding zero team records makes
the loader return the empty identifier set, so the run aborts exactly as for
a missing source: the same `earlyAbort` outcome for every endpoint and sink
(hence no network call), and no output written. -/
theorem empty_team_list_aborts_like_missing (pages : Nat → PageResp) (sinkOk : Bool) (fuel : Nat) :
    loadTeamIds (.parsed (Json.arr [])) = .ok [] ∧
    run (.parsed (Json.arr [])) pages sinkOk fuel = some .earlyAbort ∧
    run (.parsed (Json.arr [])) pages sinkOk fuel = run .missing pages sinkOk fuel :=
  ⟨rfl, rfl, rfl⟩

end BalanceUpdater
